import Mathlib

/-!
Verification development for the BRC-105 payment middleware of
`clawsats-indelible` (`createIndeliblePaymentMiddleware`, v3, together with
its helper `parseTransaction` and `cleanupPrefixes`).

The middleware gates HTTP requests behind an HTTP 402 payment challenge:
it computes a price, lets free requests through, challenges unpaid
requests, and for requests carrying a payment proof it checks the
replay guard, decodes the transaction, verifies the payment (statically
or through a wallet delegate), optionally checks a protocol-fee output,
and only then records the proof's derivation token in the replay set.

The embedding below is a direct translation of the source.  External
collaborators from the `@bsv/sdk` library (the transaction decoders
`Transaction.fromHex` / `fromBEEF` / `fromAtomicBEEF`, the P2PKH script
builder, and the optional wallet's `internalizeAction`) are modelled as
function parameters, since their code is not part of this repository;
standard base64 decoding (`Utils.toArray(s, 'base64')`) and byte-to-hex
conversion (`Utils.toHex`) are given concrete standard definitions.
-/

namespace Indelible

/-- An output of a decoded transaction: a satoshi amount and the hex of
its locking script (`output.satoshis`, `output.lockingScript.toHex()`). -/
structure TxOutput where
  satoshis : Nat
  lockingScript : String
deriving Repr, DecidableEq

/-- A decoded transaction: its ordered outputs and its content-hash id
(`tx.id('hex')`). -/
structure Tx where
  outputs : List TxOutput
  txid : String
deriving Repr, DecidableEq

/-- The transaction decoders of the external `@bsv/sdk` library, as used
by `parseTransaction`: `Transaction.fromHex`, `Transaction.fromBEEF`,
`Transaction.fromAtomicBEEF`.  Each may fail with a message (a thrown
JavaScript error). -/
structure Decoders where
  fromHex : String → Except String Tx
  fromBEEF : List Nat → Except String Tx
  fromAtomicBEEF : List Nat → Except String Tx

/-- A character allowed by the strict hex test `/^[0-9a-fA-F]+$/`. -/
def isHexChar (c : Char) : Bool :=
  ('0' ≤ c && c ≤ '9') || ('a' ≤ c && c ≤ 'f') || ('A' ≤ c && c ≤ 'F')

/-- The regex test `/^[0-9a-fA-F]+$/.test(txString)`: non-empty and made
of hex characters only. -/
def isHexString (s : String) : Bool :=
  s.length > 0 && s.data.all isHexChar

/-- The value of one base64 alphabet character, `none` for a character
outside the alphabet. -/
def base64CharVal (c : Char) : Option Nat :=
  if 'A' ≤ c && c ≤ 'Z' then some (c.toNat - 65)
  else if 'a' ≤ c && c ≤ 'z' then some (c.toNat - 71)
  else if '0' ≤ c && c ≤ '9' then some (c.toNat + 4)
  else if c = '+' then some 62
  else if c = '/' then some 63
  else none

/-- Reassemble decoded sextets into bytes, four sextets to three bytes,
with the standard handling of a short final group. -/
def base64Sextets : List Nat → Option (List Nat)
  | [] => some []
  | a :: b :: c :: d :: rest =>
      match base64Sextets rest with
      | none => none
      | some tail =>
          some ((a * 4 + b / 16) :: ((b % 16) * 16 + c / 4) :: ((c % 4) * 64 + d) :: tail)
  | [a, b] => some [a * 4 + b / 16]
  | [a, b, c] => some [a * 4 + b / 16, (b % 16) * 16 + c / 4]
  | [_] => none

/-- Standard base64 decoding of a string to bytes, modelling
`Utils.toArray(txString, 'base64')` of the external `@bsv/sdk`:
padding characters are dropped, every other character must come from
the base64 alphabet. -/
def base64Decode (s : String) : Option (List Nat) :=
  match (s.data.filter (fun c => c ≠ '=')).mapM base64CharVal with
  | none => none
  | some vals => base64Sextets vals

/-- One hex digit (lowercase), for byte-to-hex conversion. -/
def hexDigit (n : Nat) : Char :=
  if n < 10 then Char.ofNat (48 + n) else Char.ofNat (87 + n)

/-- Standard byte-to-hex conversion, modelling `Utils.toHex(binary)` of
the external `@bsv/sdk`. -/
def toHexStr (bytes : List Nat) : String :=
  String.mk (bytes.foldr (fun b acc => hexDigit (b / 16 % 16) :: hexDigit (b % 16) :: acc) [])

/-- The magic word formed from the first four bytes:
`(binary[0] << 24) | (binary[1] << 16) | (binary[2] << 8) | binary[3]`.
Modelled on `Nat`: for the two comparisons the source makes (against
`0x0100BEEF` and `0x01010101`, both with leading byte `0x01`) this
agrees with JavaScript's signed 32-bit arithmetic, since a leading byte
`≥ 0x80` yields a negative JavaScript value and a `Nat` value `≥ 2^31`,
neither of which equals either magic. -/
def magicOf : List Nat → Nat
  | b0 :: b1 :: b2 :: b3 :: _ => b0 <<< 24 ||| b1 <<< 16 ||| b2 <<< 8 ||| b3
  | _ => 0

/-- Translation of `parseTransaction(txString)`: hex strings are decoded
as raw hex transactions; otherwise the string is base64-decoded and,
when more than 4 bytes long and starting with the BEEF or AtomicBEEF
magic, decoded as that envelope; otherwise the bytes are re-encoded as
hex and decoded as a raw transaction. -/
def parseTransaction (d : Decoders) (txString : String) : Except String Tx :=
  if isHexString txString then
    d.fromHex txString
  else
    match base64Decode txString with
    | none => Except.error "invalid base64"
    | some binary =>
      if 4 < binary.length && magicOf binary == 0x0100BEEF then
        d.fromBEEF binary
      else if 4 < binary.length && magicOf binary == 0x01010101 then
        d.fromAtomicBEEF binary
      else
        d.fromHex (toHexStr binary)

/-- The ClawSats protocol fee constant `FEE_SATS = 2`. -/
def FEE_SATS : Nat := 2

/-- The hex of the P2PKH locking script for an address,
`new P2PKH().lock(operatorAddress).toHex()` of the external `@bsv/sdk`:
an injective encoding of the address into a script, compared only for
string equality by the middleware. -/
def p2pkhLockHex (addr : String) : String :=
  "76a914" ++ addr ++ "88ac"

/-- The static-matching sum: the loop
`for (const output of tx.outputs) if (output.lockingScript.toHex() === expectedScript) satoshisPaid += output.satoshis`. -/
def sumToScript (outputs : List TxOutput) (script : String) : Nat :=
  outputs.foldl (fun acc o => if o.lockingScript = script then acc + o.satoshis else acc) 0

/-- The structural protocol-fee scan: the loop
`for (let i = 1; i < tx.outputs.length; i++) if (tx.outputs[i].satoshis >= FEE_SATS) { feeOutputFound = true; break }`. -/
def feeOutputFound (outputs : List TxOutput) : Bool :=
  (outputs.drop 1).any (fun o => FEE_SATS ≤ o.satoshis)

/-- JavaScript's `v || dflt` on an optional string: an absent or empty
string falls back to the default. -/
def jsOrStr (v : Option String) (dflt : String) : String :=
  match v with
  | some s => if s = "" then dflt else s
  | none => dflt

/-- `Set.prototype.add`: the JavaScript `Set` keeps insertion order and
ignores an insertion of an element already present. -/
def setAdd (l : List (Option String)) (x : Option String) : List (Option String) :=
  if x ∈ l then l else l ++ [x]

/-- Translation of `cleanupPrefixes(prefixSet)`: when the set holds more
than 10,000 entries, delete the first 5,000 entries in insertion order. -/
def cleanupPrefixes (l : List (Option String)) : List (Option String) :=
  if 10000 < l.length then l.drop 5000 else l

/-- The recording sequence of the accepted paths:
`usedPrefixes.add(derivationPrefix); cleanupPrefixes(usedPrefixes)`. -/
def recordUsed (l : List (Option String)) (x : Option String) : List (Option String) :=
  cleanupPrefixes (setAdd l x)

/-- The payment proof parsed from the `x-bsv-payment` header
(`const { derivationPrefix, derivationSuffix, transaction } = payment`).
`none` in `derivationPrefix` / `derivationSuffix` is JavaScript's
`undefined` (the field omitted from the JSON); `none` in `transaction`
covers a missing or non-string `transaction` field (the code's
`!transaction || typeof transaction !== 'string'` test). -/
structure PaymentProof where
  derivationPrefix : Option String
  derivationSuffix : Option String
  transaction : Option String
deriving Repr, DecidableEq

/-- The state of the `x-bsv-payment` request header: absent, present but
not valid JSON (`JSON.parse` throws with a message), or a parsed proof. -/
inductive Header where
  | absent : Header
  | malformed (msg : String) : Header
  | proof (p : PaymentProof) : Header
deriving Repr, DecidableEq

/-- The parts of an inbound request the middleware reads: the computed
price (`await calculatePrice(req)`), the payment header, and the
`x-bsv-identity-key` header. -/
structure Request where
  price : Nat
  header : Header
  identityKey : Option String
deriving Repr, DecidableEq

/-- The argument object the middleware passes to the wallet delegate's
`internalizeAction`: the decoded transaction and one output claim
`{outputIndex: 0, protocol: 'wallet payment', paymentRemittance: {...}}`
plus the description string. -/
structure DelegateCall where
  tx : Tx
  outputIndex : Nat
  derivationPrefix : Option String
  derivationSuffix : String
  senderIdentityKey : String
  description : String
deriving Repr, DecidableEq

/-- The wallet delegate's result, stored verbatim in `req.payment.result`.
Modelled from the spec: the delegate reports an amount for the payment it
internalized ("trust its accept/reject decision and its reported amount");
the middleware's code treats the value as opaque. -/
structure DelegateResult where
  amount : Nat
deriving Repr, DecidableEq

/-- The middleware configuration: `operatorAddress`, the optional wallet
delegate (`config.wallet` with an `internalizeAction` function, which may
reject with a message), `requireProtocolFee`, and the external
transaction decoders.  `calculatePrice` is modelled as the `price` field
of each request, since the middleware only uses its result. -/
structure Config where
  operatorAddress : String
  wallet : Option (DelegateCall → Except String DelegateResult)
  requireProtocolFee : Bool
  decoders : Decoders

/-- The typed rejection bodies the middleware produces. -/
inductive RejectKind where
  | replayDetected
  | invalidPaymentTransaction
  | invalidTransactionFormat (msg : String)
  | insufficientPayment (paid required : Nat)
  | missingProtocolFee
  | delegateFailure (msg : String)
  | verificationFailed (msg : String)
deriving Repr, DecidableEq

/-- The verification context `req.payment` attached to an accepted
request.  `derivationPrefix = none` means the field is absent (the free
path); on a paid acceptance it holds the proof's (possibly undefined)
derivation token. -/
structure PaymentCtx where
  satoshisPaid : Nat
  accepted : Bool
  derivationPrefix : Option (Option String)
  txid : Option String
  internalized : Bool
  result : Option DelegateResult
deriving Repr, DecidableEq

/-- The middleware's terminal outcome for one request: a 402 challenge
(price and whether the fee headers are attached; the fresh random token
is generated by `crypto.randomBytes`, outside this model), an acceptance
(`next()` with `req.payment` set), or a rejection with an HTTP status. -/
inductive Outcome where
  | challenge (satoshisRequired : Nat) (withFeeHeaders : Bool)
  | accept (ctx : PaymentCtx)
  | reject (status : Nat) (err : RejectKind)
deriving Repr, DecidableEq

/-- Whether an outcome lets the request proceed. -/
def isAccept : Outcome → Bool
  | Outcome.accept _ => true
  | _ => false

/-- Translation of one invocation of the middleware returned by
`createIndeliblePaymentMiddleware` (v3), on the shared `usedPrefixes`
state: the outcome and the new state. -/
def middlewareStep (cfg : Config) (used : List (Option String)) (req : Request) :
    Outcome × List (Option String) :=
  if req.price = 0 then
    (Outcome.accept { satoshisPaid := 0, accepted := true, derivationPrefix := none,
                      txid := none, internalized := false, result := none }, used)
  else
    match req.header with
    | Header.absent => (Outcome.challenge req.price cfg.requireProtocolFee, used)
    | Header.malformed m => (Outcome.reject 400 (RejectKind.verificationFailed m), used)
    | Header.proof p =>
      if p.derivationPrefix ∈ used then
        (Outcome.reject 400 RejectKind.replayDetected, used)
      else
        match p.transaction with
        | none => (Outcome.reject 400 RejectKind.invalidPaymentTransaction, used)
        | some txString =>
          match parseTransaction cfg.decoders txString with
          | Except.error m => (Outcome.reject 400 (RejectKind.invalidTransactionFormat m), used)
          | Except.ok tx =>
            match cfg.wallet with
            | some internalizeAction =>
              match internalizeAction
                  { tx := tx, outputIndex := 0,
                    derivationPrefix := p.derivationPrefix,
                    derivationSuffix := jsOrStr p.derivationSuffix "clawsats",
                    senderIdentityKey := jsOrStr req.identityKey "",
                    description := "Payment: " ++ toString req.price ++ " sats" } with
              | Except.error m => (Outcome.reject 400 (RejectKind.delegateFailure m), used)
              | Except.ok r =>
                (Outcome.accept { satoshisPaid := req.price, accepted := true,
                                  derivationPrefix := some p.derivationPrefix,
                                  txid := some tx.txid, internalized := true,
                                  result := some r },
                 recordUsed used p.derivationPrefix)
            | none =>
              if sumToScript tx.outputs (p2pkhLockHex cfg.operatorAddress) < req.price then
                (Outcome.reject 400
                  (RejectKind.insufficientPayment
                    (sumToScript tx.outputs (p2pkhLockHex cfg.operatorAddress)) req.price), used)
              else if cfg.requireProtocolFee && !feeOutputFound tx.outputs then
                (Outcome.reject 402 RejectKind.missingProtocolFee, used)
              else
                (Outcome.accept { satoshisPaid :=
                                    sumToScript tx.outputs (p2pkhLockHex cfg.operatorAddress),
                                  accepted := true,
                                  derivationPrefix := some p.derivationPrefix,
                                  txid := some tx.txid, internalized := false,
                                  result := none },
                 recordUsed used p.derivationPrefix)

/-- Folding the middleware over a sequence of requests against one shared
prefix set: the final state. -/
def runState (cfg : Config) (used : List (Option String)) (reqs : List Request) :
    List (Option String) :=
  reqs.foldl (fun s r => (middlewareStep cfg s r).2) used

/-! ## Concrete instances for witnesses and counterexamples -/

/-- A transaction paying 20 satoshis to the operator address `"op"`. -/
def opTx : Tx :=
  { outputs := [{ satoshis := 20, lockingScript := p2pkhLockHex "op" }], txid := "t" }

/-- Decoders whose raw-hex path yields `opTx`. -/
def opTxDecoders : Decoders :=
  { fromHex := fun _ => Except.ok opTx,
    fromBEEF := fun _ => Except.error "beef", fromAtomicBEEF := fun _ => Except.error "atomic" }

/-- A static-matching configuration: no wallet delegate, no protocol fee. -/
def staticConfig : Config :=
  { operatorAddress := "op", wallet := none, requireProtocolFee := false,
    decoders := opTxDecoders }

/-- The static configuration with the protocol-fee requirement switched on. -/
def feeConfig : Config :=
  { operatorAddress := "op", wallet := none, requireProtocolFee := true,
    decoders := opTxDecoders }

/-- A wallet delegate that accepts every payment and reports amount 999. -/
def reportingDelegate : DelegateCall → Except String DelegateResult :=
  fun _ => Except.ok { amount := 999 }

/-- A delegated-verification configuration around `reportingDelegate`. -/
def walletConfig : Config :=
  { operatorAddress := "op", wallet := some reportingDelegate, requireProtocolFee := false,
    decoders := opTxDecoders }

/-- A priced request carrying a proof with the given derivation token. -/
def payReq (pfx : String) : Request :=
  { price := 15,
    header := Header.proof
      { derivationPrefix := some pfx, derivationSuffix := none, transaction := some "00" },
    identityKey := none }

/-- A priced request whose proof omits the `derivationPrefix` field. -/
def absReq : Request :=
  { price := 15,
    header := Header.proof
      { derivationPrefix := none, derivationSuffix := none, transaction := some "00" },
    identityKey := none }

/-- The string of `n` letters `a`; distinct for distinct `n`. -/
def aStr (n : Nat) : String := String.mk (List.replicate n 'a')

/-- 10,000 paying requests with pairwise distinct derivation tokens, none
of them `"z"`. -/
def evictionBatch : List Request := (List.range 10000).map (fun i => payReq (aStr i))

/-- A run that accepts token `"z"` first and then the 10,000 distinct
tokens of `evictionBatch`, overflowing the 10,000-entry bound. -/
def evictionRun : List Request := payReq "z" :: evictionBatch

/-- A transaction only the BEEF decoder would produce. -/
def beefTx : Tx := { outputs := [], txid := "beef-decoded" }

/-- A transaction only the raw-hex decoder would produce. -/
def rawTx : Tx := { outputs := [], txid := "hex-decoded" }

/-- Decoders that tag which decode path ran. -/
def probeDecoders : Decoders :=
  { fromHex := fun _ => Except.ok rawTx,
    fromBEEF := fun _ => Except.ok beefTx, fromAtomicBEEF := fun _ => Except.ok beefTx }

/-! ## Helper lemmas -/

theorem step_static_reduce (cfg : Config) (used : List (Option String)) (req : Request)
    (p : PaymentProof) (ts : String) (tx : Tx)
    (hprice : req.price ≠ 0) (hh : req.header = Header.proof p)
    (hfresh : p.derivationPrefix ∉ used) (hts : p.transaction = some ts)
    (hparse : parseTransaction cfg.decoders ts = Except.ok tx)
    (hw : cfg.wallet = none) :
    middlewareStep cfg used req =
      if sumToScript tx.outputs (p2pkhLockHex cfg.operatorAddress) < req.price then
        (Outcome.reject 400
          (RejectKind.insufficientPayment
            (sumToScript tx.outputs (p2pkhLockHex cfg.operatorAddress)) req.price), used)
      else if cfg.requireProtocolFee && !feeOutputFound tx.outputs then
        (Outcome.reject 402 RejectKind.missingProtocolFee, used)
      else
        (Outcome.accept { satoshisPaid := sumToScript tx.outputs (p2pkhLockHex cfg.operatorAddress),
                          accepted := true, derivationPrefix := some p.derivationPrefix,
                          txid := some tx.txid, internalized := false, result := none },
         recordUsed used p.derivationPrefix) := by
  unfold middlewareStep
  rw [if_neg hprice, hh]
  simp only
  rw [if_neg hfresh, hts]
  simp only
  rw [hparse]
  simp only
  rw [hw]

theorem step_wallet_reduce (cfg : Config) (used : List (Option String)) (req : Request)
    (p : PaymentProof) (ts : String) (tx : Tx)
    (w : DelegateCall → Except String DelegateResult)
    (hprice : req.price ≠ 0) (hh : req.header = Header.proof p)
    (hfresh : p.derivationPrefix ∉ used) (hts : p.transaction = some ts)
    (hparse : parseTransaction cfg.decoders ts = Except.ok tx)
    (hw : cfg.wallet = some w) :
    middlewareStep cfg used req =
      match w { tx := tx, outputIndex := 0,
                derivationPrefix := p.derivationPrefix,
                derivationSuffix := jsOrStr p.derivationSuffix "clawsats",
                senderIdentityKey := jsOrStr req.identityKey "",
                description := "Payment: " ++ toString req.price ++ " sats" } with
      | Except.error m => (Outcome.reject 400 (RejectKind.delegateFailure m), used)
      | Except.ok r =>
        (Outcome.accept { satoshisPaid := req.price, accepted := true,
                          derivationPrefix := some p.derivationPrefix,
                          txid := some tx.txid, internalized := true,
                          result := some r },
         recordUsed used p.derivationPrefix) := by
  unfold middlewareStep
  rw [if_neg hprice, hh]
  simp only
  rw [if_neg hfresh, hts]
  simp only
  rw [hparse]
  simp only
  rw [hw]

theorem length_setAdd_le (l : List (Option String)) (x : Option String) :
    (setAdd l x).length ≤ l.length + 1 := by
  unfold setAdd
  split
  · exact Nat.le_succ_of_le (Nat.le_refl _)
  · simp

theorem setAdd_of_not_mem {l : List (Option String)} {x : Option String} (h : x ∉ l) :
    setAdd l x = l ++ [x] := by
  unfold setAdd
  exact if_neg h

theorem mem_recordUsed_of_not_mem {l : List (Option String)} {x : Option String}
    (h : x ∉ l) : x ∈ recordUsed l x := by
  unfold recordUsed cleanupPrefixes
  rw [setAdd_of_not_mem h]
  split
  · rename_i hlen
    have h5 : 5000 ≤ l.length := by
      simp only [List.length_append, List.length_singleton] at hlen
      omega
    rw [List.drop_append_of_le_length h5]
    simp
  · simp

theorem sumToScript_eq_sum (outputs : List TxOutput) (script : String) :
    sumToScript outputs script =
      ((outputs.filter (fun o => o.lockingScript == script)).map TxOutput.satoshis).sum := by
  have key : ∀ (l : List TxOutput) (init : Nat),
      l.foldl (fun acc o => if o.lockingScript = script then acc + o.satoshis else acc) init =
        init + ((l.filter (fun o => o.lockingScript == script)).map TxOutput.satoshis).sum := by
    intro l
    induction l with
    | nil => intro init; simp
    | cons o rest ih =>
        intro init
        by_cases h : o.lockingScript = script
        · simp [List.foldl_cons, List.filter_cons, h, ih, Nat.add_assoc]
        · simp [List.foldl_cons, List.filter_cons, h, ih]
  simpa using key outputs 0

theorem feeOutputFound_iff (outputs : List TxOutput) :
    feeOutputFound outputs = false ↔ ∀ o ∈ outputs.drop 1, o.satoshis < FEE_SATS := by
  unfold feeOutputFound
  simp [List.any_eq_false, Nat.lt_iff_add_one_le, Nat.not_le]

theorem any_map_satoshis (l : List TxOutput) (p : Nat → Bool) :
    (l.map TxOutput.satoshis).any p = l.any (fun o => p o.satoshis) := by
  induction l with
  | nil => rfl
  | cons a t ih => simp [ih]

theorem feeOutputFound_amounts_only (l₁ l₂ : List TxOutput)
    (h : l₁.map TxOutput.satoshis = l₂.map TxOutput.satoshis) :
    feeOutputFound l₁ = feeOutputFound l₂ := by
  unfold feeOutputFound
  have h₁ : ∀ l : List TxOutput,
      ((l.drop 1).any fun o => FEE_SATS ≤ o.satoshis) =
        (((l.map TxOutput.satoshis).drop 1).any fun n => FEE_SATS ≤ n) := by
    intro l
    rw [← List.map_drop, any_map_satoshis]
  rw [h₁, h₁, h]

/-! ## Claim theorems -/

/-- C7: a request whose computed price is 0 is accepted immediately with
`satoshisPaid = 0` and `accepted = true`; the outcome and the unchanged
prefix set do not depend on the payment header, the identity header, the
transaction decoders or the current prefix-set contents, so no header is
read, no replay check runs and no decoding happens on the free path. -/
theorem free_request_accepts (cfg : Config) (used : List (Option String)) (req : Request)
    (h : req.price = 0) :
    middlewareStep cfg used req =
      (Outcome.accept { satoshisPaid := 0, accepted := true, derivationPrefix := none,
                        txid := none, internalized := false, result := none }, used) := by
  unfold middlewareStep
  rw [if_pos h]

theorem free_request_accepts_witness :
    ({ price := 0, header := Header.malformed "junk", identityKey := none } : Request).price = 0 ∧
      middlewareStep
          { operatorAddress := "op", wallet := none, requireProtocolFee := true,
            decoders := { fromHex := fun _ => Except.error "x",
                          fromBEEF := fun _ => Except.error "x",
                          fromAtomicBEEF := fun _ => Except.error "x" } }
          [some "z"]
          { price := 0, header := Header.malformed "junk", identityKey := none } =
        (Outcome.accept { satoshisPaid := 0, accepted := true, derivationPrefix := none,
                          txid := none, internalized := false, result := none }, [some "z"]) :=
  ⟨rfl, free_request_accepts _ _ _ rfl⟩

/-- C2: every outcome other than an acceptance — the 402 challenge and
every rejection (replay, invalid or undecodable transaction,
insufficient payment, missing protocol fee, wallet-delegate failure,
malformed header) — leaves the used-prefix set exactly as it was; a
prefix is recorded only on the accepted paths, after every verification
step has succeeded. -/
theorem step_state_eq_or_accept (cfg : Config) (used : List (Option String)) (req : Request) :
    (middlewareStep cfg used req).2 = used ∨ isAccept (middlewareStep cfg used req).1 = true := by
  unfold middlewareStep
  repeat' split
  all_goals simp [isAccept]

theorem reject_leaves_used_unchanged (cfg : Config) (used : List (Option String))
    (req : Request) (h : isAccept (middlewareStep cfg used req).1 = false) :
    (middlewareStep cfg used req).2 = used := by
  rcases step_state_eq_or_accept cfg used req with h2 | h2
  · exact h2
  · rw [h2] at h
    cases h

theorem reject_leaves_used_unchanged_witness :
    isAccept (middlewareStep
        { operatorAddress := "op", wallet := none, requireProtocolFee := false,
          decoders := { fromHex := fun _ => Except.error "bad",
                        fromBEEF := fun _ => Except.error "bad",
                        fromAtomicBEEF := fun _ => Except.error "bad" } }
        [some "z"]
        { price := 7,
          header := Header.proof
            { derivationPrefix := some "z", derivationSuffix := none,
              transaction := some "00" },
          identityKey := none }).1 = false ∧
      (middlewareStep
        { operatorAddress := "op", wallet := none, requireProtocolFee := false,
          decoders := { fromHex := fun _ => Except.error "bad",
                        fromBEEF := fun _ => Except.error "bad",
                        fromAtomicBEEF := fun _ => Except.error "bad" } }
        [some "z"]
        { price := 7,
          header := Header.proof
            { derivationPrefix := some "z", derivationSuffix := none,
              transaction := some "00" },
          identityKey := none }).2 = [some "z"] :=
  ⟨by decide, reject_leaves_used_unchanged _ _ _ (by decide)⟩

/-- C6: when the proof's transaction string fails to decode at any stage
(the decoder raised with message `m`), the middleware answers with the
HTTP 400 `InvalidTransactionFormat` rejection carrying the underlying
parser's message, leaves the prefix set unchanged, and — the step
function being total — never lets the decode failure escape as an
unhandled fault. -/
theorem decode_failure_rejected (cfg : Config) (used : List (Option String)) (req : Request)
    (p : PaymentProof) (ts m : String)
    (hprice : req.price ≠ 0) (hh : req.header = Header.proof p)
    (hfresh : p.derivationPrefix ∉ used) (hts : p.transaction = some ts)
    (hparse : parseTransaction cfg.decoders ts = Except.error m) :
    middlewareStep cfg used req =
      (Outcome.reject 400 (RejectKind.invalidTransactionFormat m), used) := by
  unfold middlewareStep
  rw [if_neg hprice, hh]
  simp only
  rw [if_neg hfresh, hts]
  simp only
  rw [hparse]

theorem decode_failure_rejected_witness :
    (7 : Nat) ≠ 0 ∧
      middlewareStep
          { operatorAddress := "op", wallet := none, requireProtocolFee := false,
            decoders := { fromHex := fun _ => Except.error "bad tx",
                          fromBEEF := fun _ => Except.error "bad tx",
                          fromAtomicBEEF := fun _ => Except.error "bad tx" } }
          []
          { price := 7,
            header := Header.proof
              { derivationPrefix := some "z", derivationSuffix := none,
                transaction := some "00" },
            identityKey := none } =
        (Outcome.reject 400 (RejectKind.invalidTransactionFormat "bad tx"), []) :=
  ⟨by decide,
   decode_failure_rejected _ _ _
     { derivationPrefix := some "z", derivationSuffix := none, transaction := some "00" }
     "00" "bad tx" (by decide) rfl (by decide) rfl rfl⟩

/-- C3: in static-matching mode (no wallet delegate), with the decoded
transaction in hand and a positive price `R`, the sum `S` of the satoshi
amounts of the outputs whose locking script exactly equals the P2PKH
script derived from `operatorAddress` decides the request: the request
is accepted exactly when `R ≤ S`, the accepted context reports
`satoshisPaid = S`, and when `S < R` the request is rejected with HTTP
400 `InsufficientPayment` reporting both `S` and `R`. -/
theorem static_matching_verification (cfg : Config) (used : List (Option String))
    (req : Request) (p : PaymentProof) (ts : String) (tx : Tx)
    (hw : cfg.wallet = none) (hfee : cfg.requireProtocolFee = false)
    (hprice : req.price ≠ 0) (hh : req.header = Header.proof p)
    (hfresh : p.derivationPrefix ∉ used) (hts : p.transaction = some ts)
    (hparse : parseTransaction cfg.decoders ts = Except.ok tx) :
    sumToScript tx.outputs (p2pkhLockHex cfg.operatorAddress) =
        ((tx.outputs.filter fun o => o.lockingScript == p2pkhLockHex cfg.operatorAddress).map
          TxOutput.satoshis).sum ∧
    (req.price ≤ sumToScript tx.outputs (p2pkhLockHex cfg.operatorAddress) →
      middlewareStep cfg used req =
        (Outcome.accept
          { satoshisPaid := sumToScript tx.outputs (p2pkhLockHex cfg.operatorAddress),
            accepted := true, derivationPrefix := some p.derivationPrefix,
            txid := some tx.txid, internalized := false, result := none },
         recordUsed used p.derivationPrefix)) ∧
    (sumToScript tx.outputs (p2pkhLockHex cfg.operatorAddress) < req.price →
      middlewareStep cfg used req =
        (Outcome.reject 400
          (RejectKind.insufficientPayment
            (sumToScript tx.outputs (p2pkhLockHex cfg.operatorAddress)) req.price), used)) := by
  have hred := step_static_reduce cfg used req p ts tx hprice hh hfresh hts hparse hw
  refine ⟨sumToScript_eq_sum _ _, ?_, ?_⟩
  · intro hS
    rw [hred, if_neg (Nat.not_lt.mpr hS), hfee]
    simp
  · intro hS
    rw [hred, if_pos hS]

theorem static_matching_verification_witness :
    (15 : Nat) ≤ sumToScript opTx.outputs (p2pkhLockHex "op") ∧
      middlewareStep staticConfig [] (payReq "z") =
        (Outcome.accept
          { satoshisPaid := sumToScript opTx.outputs (p2pkhLockHex "op"),
            accepted := true, derivationPrefix := some (some "z"),
            txid := some "t", internalized := false, result := none },
         recordUsed [] (some "z")) :=
  ⟨by decide,
   (static_matching_verification staticConfig [] (payReq "z")
       { derivationPrefix := some "z", derivationSuffix := none, transaction := some "00" }
       "00" opTx rfl rfl (by decide) rfl (by decide) rfl rfl).2.1 (by decide)⟩

/-- C4: under the structural fee policy (`requireProtocolFee` on, no
wallet delegate, static verification already passed), the request is
rejected — with HTTP 402 and the `ERR_MISSING_FEE` body — exactly when
no output after the primary payment output (index 0) carries at least
the 2-satoshi protocol fee; and the fee scan reads only the outputs'
amounts, never their destination scripts: any output list with the same
amounts yields the same fee decision. -/
theorem structural_fee_check (cfg : Config) (used : List (Option String))
    (req : Request) (p : PaymentProof) (ts : String) (tx : Tx)
    (hw : cfg.wallet = none) (hfee : cfg.requireProtocolFee = true)
    (hprice : req.price ≠ 0) (hh : req.header = Header.proof p)
    (hfresh : p.derivationPrefix ∉ used) (hts : p.transaction = some ts)
    (hparse : parseTransaction cfg.decoders ts = Except.ok tx)
    (hpaid : ¬ sumToScript tx.outputs (p2pkhLockHex cfg.operatorAddress) < req.price) :
    (middlewareStep cfg used req = (Outcome.reject 402 RejectKind.missingProtocolFee, used) ↔
      ∀ o ∈ tx.outputs.drop 1, o.satoshis < FEE_SATS) ∧
    (∀ l₂ : List TxOutput, tx.outputs.map TxOutput.satoshis = l₂.map TxOutput.satoshis →
      feeOutputFound tx.outputs = feeOutputFound l₂) := by
  have hred := step_static_reduce cfg used req p ts tx hprice hh hfresh hts hparse hw
  constructor
  · rw [hred, if_neg hpaid, hfee]
    cases hfo : feeOutputFound tx.outputs with
    | false =>
        have hall := (feeOutputFound_iff tx.outputs).mp hfo
        simp [hfo]
        simpa [List.drop_one] using hall
    | true =>
        simp only [hfo, Bool.not_true, Bool.and_false, if_neg, Bool.false_eq_true,
          not_false_eq_true, if_false]
        constructor
        · intro hcontra
          exact absurd hcontra (by simp)
        · intro hall
          have hfalse := (feeOutputFound_iff tx.outputs).mpr hall
          rw [hfalse] at hfo
          cases hfo
  · intro l₂ h
    exact feeOutputFound_amounts_only _ _ h

theorem structural_fee_check_witness :
    (¬ sumToScript opTx.outputs (p2pkhLockHex "op") < 15) ∧
      middlewareStep feeConfig [] (payReq "z") =
        (Outcome.reject 402 RejectKind.missingProtocolFee, []) :=
  ⟨by decide,
   ((structural_fee_check feeConfig [] (payReq "z")
       { derivationPrefix := some "z", derivationSuffix := none, transaction := some "00" }
       "00" opTx rfl rfl (by decide) rfl (by decide) rfl rfl (by decide)).1).mpr (by decide)⟩

/-- C5 (amended): transaction decoding is a first-match-wins dispatch —
a string of hexadecimal characters is always decoded by the raw-hex
decoder, whose result (success or failure) is returned with no base64
fallback; any other string is base64-decoded, and when the decoded bytes
number more than 4 and the first 4 equal `0x0100BEEF` they go to the
BEEF decoder, more than 4 and first 4 equal `0x01010101` to the
AtomicBEEF decoder, and in every other case (including a byte array of
exactly 4 bytes equal to a magic) to the raw-bytes path, re-encoded as
hex. -/
theorem parseTransaction_dispatch (d : Decoders) (s : String) (binary : List Nat) :
    (isHexString s = true → parseTransaction d s = d.fromHex s) ∧
    (isHexString s = false → base64Decode s = some binary →
      ((4 < binary.length → magicOf binary = 0x0100BEEF →
          parseTransaction d s = d.fromBEEF binary) ∧
       (4 < binary.length → magicOf binary = 0x01010101 →
          parseTransaction d s = d.fromAtomicBEEF binary) ∧
       (binary.length ≤ 4 ∨ (magicOf binary ≠ 0x0100BEEF ∧ magicOf binary ≠ 0x01010101) →
          parseTransaction d s = d.fromHex (toHexStr binary)))) := by
  constructor
  · intro hhex
    unfold parseTransaction
    rw [if_pos hhex]
  · intro hhex hb64
    refine ⟨?_, ?_, ?_⟩
    · intro hlen hmag
      unfold parseTransaction
      rw [if_neg (by simp [hhex]), hb64]
      simp only
      rw [if_pos (by simp [hlen, hmag])]
    · intro hlen hmag
      unfold parseTransaction
      rw [if_neg (by simp [hhex]), hb64]
      simp only
      rw [if_neg (by simp [hmag]), if_pos (by simp [hlen, hmag])]
    · intro hcase
      unfold parseTransaction
      rw [if_neg (by simp [hhex]), hb64]
      simp only
      rcases hcase with hlen | ⟨hm1, hm2⟩
      · rw [if_neg (by simp [Nat.not_lt.mpr hlen]), if_neg (by simp [Nat.not_lt.mpr hlen])]
      · rw [if_neg (by simp [hm1]), if_neg (by simp [hm2])]

theorem parseTransaction_dispatch_witness :
    isHexString "AQC+7wA=" = false ∧ base64Decode "AQC+7wA=" = some [1, 0, 190, 239, 0] ∧
      parseTransaction probeDecoders "AQC+7wA=" = Except.ok beefTx :=
  ⟨by decide, by decide,
   ((parseTransaction_dispatch probeDecoders "AQC+7wA=" [1, 0, 190, 239, 0]).2
       (by decide) (by decide)).1 (by decide) (by decide)⟩

/-- C5 counterexample: the claim says bytes whose first 4 equal the
BEEF magic are decoded as BEEF, but for the base64 input `"AQC+7wA="`'s
4-byte sibling `"AQC+7w=="` — exactly the bytes `01 00 BE EF` — the code
requires strictly more than 4 bytes (`binary.length > 4`), skips the
magic check, and decodes the bytes on the raw path instead. -/
theorem parseTransaction_magic_len4_cex :
    isHexString "AQC+7w==" = false ∧
    base64Decode "AQC+7w==" = some [1, 0, 190, 239] ∧
    magicOf [1, 0, 190, 239] = 0x0100BEEF ∧
    parseTransaction probeDecoders "AQC+7w==" = Except.ok rawTx ∧
    probeDecoders.fromBEEF [1, 0, 190, 239] = Except.ok beefTx ∧
    rawTx ≠ beefTx :=
  ⟨by decide, by decide, by decide, rfl, rfl, by decide⟩

/-- C8 (amended): in delegated-verification mode, when the configured
wallet's `internalizeAction` accepts (returning result `r`), the request
is accepted and the attached verification context reports the computed
price — not the delegate's reported amount — as `satoshisPaid`, carries
the delegate's result verbatim in `result`, the transaction's
content-hash id as `txid`, and `internalized = true`; the proof's token
is recorded. -/
theorem delegate_accept_context (cfg : Config) (used : List (Option String)) (req : Request)
    (p : PaymentProof) (ts : String) (tx : Tx)
    (w : DelegateCall → Except String DelegateResult) (r : DelegateResult)
    (hw : cfg.wallet = some w) (hprice : req.price ≠ 0) (hh : req.header = Header.proof p)
    (hfresh : p.derivationPrefix ∉ used) (hts : p.transaction = some ts)
    (hparse : parseTransaction cfg.decoders ts = Except.ok tx)
    (hcall : w { tx := tx, outputIndex := 0, derivationPrefix := p.derivationPrefix,
                 derivationSuffix := jsOrStr p.derivationSuffix "clawsats",
                 senderIdentityKey := jsOrStr req.identityKey "",
                 description := "Payment: " ++ toString req.price ++ " sats" } = Except.ok r) :
    middlewareStep cfg used req =
      (Outcome.accept { satoshisPaid := req.price, accepted := true,
                        derivationPrefix := some p.derivationPrefix,
                        txid := some tx.txid, internalized := true, result := some r },
       recordUsed used p.derivationPrefix) := by
  rw [step_wallet_reduce cfg used req p ts tx w hprice hh hfresh hts hparse hw, hcall]

theorem delegate_accept_context_witness :
    reportingDelegate
        { tx := opTx, outputIndex := 0, derivationPrefix := some "w",
          derivationSuffix := "clawsats", senderIdentityKey := "",
          description := "Payment: 15 sats" } = Except.ok { amount := 999 } ∧
      middlewareStep walletConfig [] (payReq "w") =
        (Outcome.accept { satoshisPaid := 15, accepted := true,
                          derivationPrefix := some (some "w"), txid := some "t",
                          internalized := true, result := some { amount := 999 } },
         recordUsed [] (some "w")) :=
  ⟨rfl,
   delegate_accept_context walletConfig [] (payReq "w")
     { derivationPrefix := some "w", derivationSuffix := none, transaction := some "00" }
     "00" opTx reportingDelegate { amount := 999 }
     rfl (by decide) rfl (by decide) rfl rfl rfl⟩

/-- C8 counterexample: the delegate reports amount 999, yet the accepted
context's `satoshisPaid` is the computed price 15 — the code sets
`satoshisPaid: price`, not the delegate's reported amount, which is only
attached as the opaque `result`. -/
theorem delegate_amount_ignored_cex :
    (middlewareStep walletConfig [] (payReq "w")).1 =
      Outcome.accept { satoshisPaid := 15, accepted := true,
                       derivationPrefix := some (some "w"), txid := some "t",
                       internalized := true, result := some { amount := 999 } } ∧
    reportingDelegate
        { tx := opTx, outputIndex := 0, derivationPrefix := some "w",
          derivationSuffix := "clawsats", senderIdentityKey := "",
          description := "Payment: 15 sats" } = Except.ok { amount := 999 } ∧
    (15 : Nat) ≠ 999 :=
  ⟨by decide, rfl, by decide⟩

/-- C9: recording a token into the used-prefix set is total (no error on
any input, in particular on a set already holding 10,000 entries), and
starting from a set within the 10,000-entry bound: the result is within
the bound, the just-recorded token is present afterwards, when the
insertion pushes the set over the bound the 5,000 oldest entries (a
prefix of the insertion order) are dropped, and otherwise the set is
just the insertion result. -/
theorem recordUsed_bounded (l : List (Option String)) (x : Option String)
    (hlen : l.length ≤ 10000) :
    (recordUsed l x).length ≤ 10000 ∧
    x ∈ recordUsed l x ∧
    (10000 < (setAdd l x).length → recordUsed l x = (setAdd l x).drop 5000) ∧
    ((setAdd l x).length ≤ 10000 → recordUsed l x = setAdd l x) := by
  refine ⟨?_, ?_, ?_, ?_⟩
  · unfold recordUsed cleanupPrefixes
    have hadd := length_setAdd_le l x
    split
    · rename_i h10
      simp only [List.length_drop]
      omega
    · rename_i h10
      omega
  · by_cases hx : x ∈ l
    · unfold recordUsed cleanupPrefixes setAdd
      rw [if_pos hx, if_neg (by omega)]
      exact hx
    · exact mem_recordUsed_of_not_mem hx
  · intro h10
    unfold recordUsed cleanupPrefixes
    rw [if_pos h10]
  · intro h10
    unfold recordUsed cleanupPrefixes
    rw [if_neg (by omega)]

theorem recordUsed_bounded_witness :
    (List.replicate 10000 (some "q" : Option String)).length ≤ 10000 ∧
      ((recordUsed (List.replicate 10000 (some "q")) (some "z")).length ≤ 10000 ∧
       some "z" ∈ recordUsed (List.replicate 10000 (some "q")) (some "z") ∧
       (10000 < (setAdd (List.replicate 10000 (some "q")) (some "z")).length →
         recordUsed (List.replicate 10000 (some "q")) (some "z") =
           (setAdd (List.replicate 10000 (some "q")) (some "z")).drop 5000) ∧
       ((setAdd (List.replicate 10000 (some "q")) (some "z")).length ≤ 10000 →
         recordUsed (List.replicate 10000 (some "q")) (some "z") =
           setAdd (List.replicate 10000 (some "q")) (some "z"))) :=
  ⟨by rw [List.length_replicate], recordUsed_bounded _ _ (by rw [List.length_replicate])⟩

/-- C10: the middleware never checks that a submitted token was issued
by a prior challenge — any value absent from the used-prefix set passes
the replay check, including the undefined value of a proof that omits
`derivationPrefix` entirely: of two otherwise-valid proofs both omitting
the field, the first is accepted (and the undefined value recorded), and
the second is rejected as a replay, whatever transaction it carries. -/
theorem absent_token_replay (cfg : Config) (used : List (Option String))
    (req1 req2 : Request) (p1 p2 : PaymentProof) (ts : String) (tx : Tx)
    (hw : cfg.wallet = none) (hfee : cfg.requireProtocolFee = false)
    (hprice1 : req1.price ≠ 0) (hh1 : req1.header = Header.proof p1)
    (hp1 : p1.derivationPrefix = none)
    (hfresh : (none : Option String) ∉ used)
    (hts : p1.transaction = some ts)
    (hparse : parseTransaction cfg.decoders ts = Except.ok tx)
    (hpaid : req1.price ≤ sumToScript tx.outputs (p2pkhLockHex cfg.operatorAddress))
    (hprice2 : req2.price ≠ 0) (hh2 : req2.header = Header.proof p2)
    (hp2 : p2.derivationPrefix = none) :
    middlewareStep cfg used req1 =
      (Outcome.accept
        { satoshisPaid := sumToScript tx.outputs (p2pkhLockHex cfg.operatorAddress),
          accepted := true, derivationPrefix := some none,
          txid := some tx.txid, internalized := false, result := none },
       recordUsed used none) ∧
    middlewareStep cfg (recordUsed used none) req2 =
      (Outcome.reject 400 RejectKind.replayDetected, recordUsed used none) := by
  constructor
  · have hred := step_static_reduce cfg used req1 p1 ts tx hprice1 hh1
      (by rw [hp1]; exact hfresh) hts hparse hw
    rw [hred, if_neg (Nat.not_lt.mpr hpaid), hfee, hp1]
    simp
  · have hmem : (none : Option String) ∈ recordUsed used none :=
      mem_recordUsed_of_not_mem hfresh
    unfold middlewareStep
    rw [if_neg hprice2, hh2]
    simp only
    rw [hp2, if_pos hmem]

theorem absent_token_replay_witness :
    ((none : Option String) ∉ ([] : List (Option String))) ∧
      (middlewareStep staticConfig [] absReq =
        (Outcome.accept
          { satoshisPaid := sumToScript opTx.outputs (p2pkhLockHex "op"),
            accepted := true, derivationPrefix := some none,
            txid := some "t", internalized := false, result := none },
         recordUsed [] none) ∧
       middlewareStep staticConfig (recordUsed [] none) absReq =
        (Outcome.reject 400 RejectKind.replayDetected, recordUsed [] none)) :=
  ⟨by simp,
   absent_token_replay staticConfig [] absReq absReq
     { derivationPrefix := none, derivationSuffix := none, transaction := some "00" }
     { derivationPrefix := none, derivationSuffix := none, transaction := some "00" }
     "00" opTx rfl rfl (by decide) rfl rfl (by simp) rfl rfl (by decide) (by decide) rfl rfl⟩

theorem accept_state_eq (cfg : Config) (used : List (Option String)) (req : Request)
    (p : PaymentProof) (ctx : PaymentCtx) (st : List (Option String))
    (hh : req.header = Header.proof p) (hprice : req.price ≠ 0)
    (hfresh : p.derivationPrefix ∉ used)
    (hstep : middlewareStep cfg used req = (Outcome.accept ctx, st)) :
    st = recordUsed used p.derivationPrefix := by
  unfold middlewareStep at hstep
  rw [if_neg hprice, hh] at hstep
  simp only at hstep
  rw [if_neg hfresh] at hstep
  rcases htx : p.transaction with _ | ts
  · rw [htx] at hstep
    simp at hstep
  · rw [htx] at hstep
    simp only at hstep
    rcases hp : parseTransaction cfg.decoders ts with m | tx
    · rw [hp] at hstep
      simp at hstep
    · rw [hp] at hstep
      rcases hw : cfg.wallet with _ | w
      · rw [hw] at hstep
        simp only at hstep
        split at hstep
        · simp at hstep
        · split at hstep
          · simp at hstep
          · exact (congrArg Prod.snd hstep).symm
      · rw [hw] at hstep
        simp only at hstep
        rcases hc : w { tx := tx, outputIndex := 0, derivationPrefix := p.derivationPrefix,
                        derivationSuffix := jsOrStr p.derivationSuffix "clawsats",
                        senderIdentityKey := jsOrStr req.identityKey "",
                        description := "Payment: " ++ toString req.price ++ " sats" } with m | r
      <;> rw [hc] at hstep
        · simp at hstep
        · exact (congrArg Prod.snd hstep).symm

/-- C1 (amended): a derivation token can be accepted at most once while
it stays in the used-prefix set — for a positive-price request carrying
a proof, if the proof's token is currently in the set the request is
rejected with the HTTP 400 `ReplayDetected` error and the set is left
unchanged, regardless of the transaction the proof carries; and any
accepted proof leaves its token in the resulting set.  (The bounded set
evicts its 5,000 oldest entries when it outgrows 10,000, so "recorded
once, rejected forever" holds only while the token survives eviction —
see the counterexample.) -/
theorem replay_reject_while_recorded (cfg : Config) (used : List (Option String))
    (req : Request) (p : PaymentProof)
    (hh : req.header = Header.proof p) (hprice : req.price ≠ 0) :
    (p.derivationPrefix ∈ used →
      middlewareStep cfg used req = (Outcome.reject 400 RejectKind.replayDetected, used)) ∧
    (∀ ctx st, middlewareStep cfg used req = (Outcome.accept ctx, st) →
      p.derivationPrefix ∈ st) := by
  constructor
  · intro hmem
    unfold middlewareStep
    rw [if_neg hprice, hh]
    simp only
    rw [if_pos hmem]
  · intro ctx st hstep
    by_cases hmem : p.derivationPrefix ∈ used
    · have hrej : middlewareStep cfg used req =
          (Outcome.reject 400 RejectKind.replayDetected, used) := by
        unfold middlewareStep
        rw [if_neg hprice, hh]
        simp only
        rw [if_pos hmem]
      rw [hrej] at hstep
      simp at hstep
    · rw [accept_state_eq cfg used req p ctx st hh hprice hmem hstep]
      exact mem_recordUsed_of_not_mem hmem

theorem replay_reject_while_recorded_witness :
    (some "z" : Option String) ∈ [some "z"] ∧
      middlewareStep staticConfig [some "z"] (payReq "z") =
        (Outcome.reject 400 RejectKind.replayDetected, [some "z"]) :=
  ⟨by decide,
   (replay_reject_while_recorded staticConfig [some "z"] (payReq "z")
       { derivationPrefix := some "z", derivationSuffix := none, transaction := some "00" }
       rfl (by decide)).1 (by decide)⟩

theorem payReq_step (used : List (Option String)) (pfx : String)
    (h : (some pfx : Option String) ∉ used) :
    middlewareStep staticConfig used (payReq pfx) =
      (Outcome.accept { satoshisPaid := 20, accepted := true,
                        derivationPrefix := some (some pfx),
                        txid := some "t", internalized := false, result := none },
       recordUsed used (some pfx)) := by
  have hred := step_static_reduce staticConfig used (payReq pfx)
      { derivationPrefix := some pfx, derivationSuffix := none, transaction := some "00" }
      "00" opTx (by simp [payReq]) rfl h rfl rfl rfl
  rw [hred]
  rfl

theorem aStr_inj {i j : Nat} (h : aStr i = aStr j) : i = j := by
  have hd := congrArg String.data h
  simpa [aStr] using hd

theorem aStr_ne_z (i : Nat) : aStr i ≠ "z" := by
  intro h
  have hd : List.replicate i 'a' = ['z'] := by
    have := congrArg String.data h
    simpa [aStr] using this
  have hz : ('z' : Char) ∈ List.replicate i 'a' := by rw [hd]; simp
  have := List.eq_of_mem_replicate hz
  exact absurd this (by decide)

theorem batch_fresh (k n : Nat) (hk : n ≤ k) :
    (some (aStr k) : Option String) ∉
      some "z" :: (List.range n).map (fun i => some (aStr i)) := by
  intro hmem
  rcases List.mem_cons.mp hmem with h | h
  · exact aStr_ne_z k (Option.some.inj h)
  · rcases List.mem_map.mp h with ⟨i, hi, hie⟩
    have hik : i = k := aStr_inj (Option.some.inj hie)
    have hin : i < n := List.mem_range.mp hi
    omega

theorem runState_append (cfg : Config) (s : List (Option String)) (l1 l2 : List Request) :
    runState cfg s (l1 ++ l2) = runState cfg (runState cfg s l1) l2 := by
  unfold runState
  exact List.foldl_append _ _ _ _

theorem runState_cons (cfg : Config) (s : List (Option String)) (r : Request)
    (rs : List Request) :
    runState cfg s (r :: rs) = runState cfg ((middlewareStep cfg s r).2) rs := rfl

theorem runState_nil (cfg : Config) (s : List (Option String)) :
    runState cfg s [] = s := rfl

theorem evictionBatchState (n : Nat) (hn : n ≤ 9999) :
    runState staticConfig [some "z"] ((List.range n).map (fun i => payReq (aStr i))) =
      some "z" :: (List.range n).map (fun i => some (aStr i)) := by
  induction n with
  | zero => simp [runState]
  | succ k ih =>
      have hk9 : k ≤ 9999 := Nat.le_of_succ_le hn
      rw [List.range_succ, List.map_append, runState_append, ih hk9]
      simp only [List.map_cons, List.map_nil, runState, List.foldl_cons, List.foldl_nil]
      rw [payReq_step _ _ (batch_fresh k k (Nat.le_refl k))]
      unfold recordUsed cleanupPrefixes
      rw [setAdd_of_not_mem (batch_fresh k k (Nat.le_refl k))]
      rw [if_neg (by
        simp only [List.length_append, List.length_cons, List.length_map,
          List.length_range, List.length_nil, List.length_singleton]
        omega)]
      simp [List.range_succ]

theorem evictionRunState :
    runState staticConfig [] evictionRun =
      (some "z" :: (List.range 10000).map (fun i => some (aStr i))).drop 5000 := by
  unfold evictionRun
  rw [runState_cons, payReq_step [] "z" (by simp)]
  show runState staticConfig (recordUsed [] (some "z")) evictionBatch = _
  have hz1 : (recordUsed [] (some "z")) = [some "z"] := rfl
  have hsplit : evictionBatch =
      (List.range 9999).map (fun i => payReq (aStr i)) ++ [payReq (aStr 9999)] := by
    unfold evictionBatch
    rw [show (10000 : Nat) = 9999 + 1 from rfl, List.range_succ, List.map_append]
    rfl
  rw [hz1, hsplit, runState_append, evictionBatchState 9999 (Nat.le_refl 9999)]
  rw [runState_cons, runState_nil]
  rw [payReq_step _ _ (batch_fresh 9999 9999 (Nat.le_refl 9999))]
  unfold recordUsed cleanupPrefixes
  rw [setAdd_of_not_mem (batch_fresh 9999 9999 (Nat.le_refl 9999))]
  rw [if_pos (by
    simp only [List.length_append, List.length_cons, List.length_map,
      List.length_range, List.length_singleton]
    omega)]
  have hr : (List.range 10000).map (fun i => some (aStr i)) =
      (List.range 9999).map (fun i => some (aStr i)) ++ [some (aStr 9999)] := by
    rw [show (10000 : Nat) = 9999 + 1 from rfl, List.range_succ, List.map_append]
    rfl
  rw [hr, ← List.cons_append]

/-- C1 counterexample: in a run where the token `"z"` is accepted and
recorded, then 10,000 requests with distinct fresh tokens are accepted —
overflowing the 10,000-entry bound and evicting the 5,000 oldest
entries, `"z"` among them — a later proof carrying the very same token
`"z"` is accepted again, so "once accepted and recorded, every later
proof with the same token is rejected" fails, and the same token is
accepted twice in one sequence. -/
theorem replay_accept_after_eviction_cex :
    isAccept (middlewareStep staticConfig [] (payReq "z")).1 = true ∧
    (some "z" : Option String) ∈ (middlewareStep staticConfig [] (payReq "z")).2 ∧
    isAccept (middlewareStep staticConfig
        (runState staticConfig [] evictionRun) (payReq "z")).1 = true := by
  refine ⟨?_, ?_, ?_⟩
  · rw [payReq_step [] "z" (by simp)]
    rfl
  · rw [payReq_step [] "z" (by simp)]
    simp [recordUsed, cleanupPrefixes, setAdd]
  · rw [evictionRunState]
    have hd : (some "z" :: (List.range 10000).map (fun i => some (aStr i))).drop 5000 =
        ((List.range 10000).map (fun i => some (aStr i))).drop 4999 := by
      rw [show (5000 : Nat) = 4999 + 1 from rfl, List.drop_succ_cons]
    rw [hd]
    have hz : (some "z" : Option String) ∉
        ((List.range 10000).map (fun i => some (aStr i))).drop 4999 := by
      intro hmem
      have hfull := List.drop_subset _ _ hmem
      rcases List.mem_map.mp hfull with ⟨i, _, hie⟩
      exact aStr_ne_z i (Option.some.inj hie)
    rw [payReq_step _ _ hz]
    rfl

end Indelible
